import Mathlib

/-!
Shallow embedding of the navigable-expression layer of
`src/vendor/github.com/google/cel-go/common/ast/expr.go`.

The raw protobuf expression tree (`exprpb.Expr`) is modelled as the
inductive `RawExpr`; nil-able message pointers become `Option`, repeated
fields become `List`, and proto getters (which return zero values on a
nil receiver or a mismatched oneof case) become the total `get*`
functions below.  The Go struct `navigableExprImpl` stores the kind and
child factory computed by `kindOf` at construction; since the wrapped
expression is immutable, storing and recomputing are observationally
identical, so `Nav` stores only the parent, the raw expression and the
type map, and `Nav.Kind` / `Nav.Children` recompute `kindOf`.
-/

set_option maxHeartbeats 1000000

namespace CelNav

/-- ExprKind from the source: the nine-way node classification. -/
inductive ExprKind : Type where
  | UnspecifiedKind
  | LiteralKind
  | IdentKind
  | SelectKind
  | CallKind
  | ListKind
  | MapKind
  | StructKind
  | ComprehensionKind
deriving DecidableEq, Repr

/-- External constant payload (`exprpb.Constant`), opaque to this layer. -/
inductive Constant : Type where
  | nullC
  | boolC (b : Bool)
  | int64C (i : Int)
  | stringC (s : String)
deriving DecidableEq, Repr

/-- External runtime value (`ref.Val`), opaque to this layer. -/
inductive RefVal : Type where
  | boolV (b : Bool)
  | intV (i : Int)
  | stringV (s : String)
deriving DecidableEq, Repr

/-- External static type (`*types.Type`); `dyn` models `types.DynType`. -/
inductive CelType : Type where
  | dyn
  | named (s : String)
deriving DecidableEq, Repr

/-- `types.DynType`, the dynamic/unknown sentinel. -/
def DynType : CelType := CelType.dyn

mutual
/-- The raw expression tree `exprpb.Expr`: a tagged union with id.
`unspecE` models an `Expr` whose `expr_kind` oneof is unset
(the `default` case of `kindOf`); a nil `*exprpb.Expr` is `none` at
use sites of type `Option RawExpr`. -/
inductive RawExpr : Type where
  | constE (id : Int) (c : Option Constant)
  | identE (id : Int) (name : String)
  | selectE (id : Int) (operand : Option RawExpr) (field : String) (testOnly : Bool)
  | callE (id : Int) (target : Option RawExpr) (function : String) (args : List RawExpr)
  | listE (id : Int) (elements : List RawExpr) (optionalIndices : List Int)
  | structE (id : Int) (messageName : String) (entries : List ExprEntry)
  | comprehensionE (id : Int) (iterRange : Option RawExpr) (iterVar : String)
      (accuVar : String) (accuInit : Option RawExpr) (loopCondition : Option RawExpr)
      (loopStep : Option RawExpr) (result : Option RawExpr)
  | unspecE (id : Int)

/-- `exprpb.Expr_CreateStruct_Entry`: id, key oneof, value, optional flag. -/
inductive ExprEntry : Type where
  | mk (id : Int) (keyKind : EntryKeyKind) (value : Option RawExpr) (optionalEntry : Bool)

/-- The `key_kind` oneof of a struct/map entry. -/
inductive EntryKeyKind : Type where
  | fieldKey (name : String)
  | mapKey (k : RawExpr)
  | unsetKey
end

/-- `GetFieldKey()`: the field key, or `""` when the oneof holds a map key
or is unset. -/
def ExprEntry.getFieldKey : ExprEntry → String
  | .mk _ (.fieldKey n) _ _ => n
  | _ => ""

/-- `GetMapKey()`: the map-key expression, or nil when the oneof holds a
field key or is unset. -/
def ExprEntry.getMapKey : ExprEntry → Option RawExpr
  | .mk _ (.mapKey k) _ _ => some k
  | _ => none

/-- `GetValue()` on an entry. -/
def ExprEntry.getValue : ExprEntry → Option RawExpr
  | .mk _ _ v _ => v

/-- `GetOptionalEntry()` on an entry. -/
def ExprEntry.getOptionalEntry : ExprEntry → Bool
  | .mk _ _ _ o => o

/-- `expr.GetId()`; 0 on a nil expression. -/
def getId : Option RawExpr → Int
  | some (.constE id _) => id
  | some (.identE id _) => id
  | some (.selectE id _ _ _) => id
  | some (.callE id _ _ _) => id
  | some (.listE id _ _) => id
  | some (.structE id _ _) => id
  | some (.comprehensionE id _ _ _ _ _ _ _) => id
  | some (.unspecE id) => id
  | none => 0

/-- `expr.GetConstExpr()`: the constant payload, nil otherwise. -/
def getConstExpr : Option RawExpr → Option Constant
  | some (.constE _ c) => c
  | _ => none

/-- `expr.GetIdentExpr().GetName()`: the identifier name, `""` otherwise. -/
def getIdentName : Option RawExpr → String
  | some (.identE _ n) => n
  | _ => ""

/-- `expr.GetSelectExpr().GetOperand()`. -/
def getSelectOperand : Option RawExpr → Option RawExpr
  | some (.selectE _ op _ _) => op
  | _ => none

/-- `expr.GetSelectExpr().GetField()`. -/
def getSelectField : Option RawExpr → String
  | some (.selectE _ _ f _) => f
  | _ => ""

/-- `expr.GetSelectExpr().GetTestOnly()`. -/
def getSelectTestOnly : Option RawExpr → Bool
  | some (.selectE _ _ _ t) => t
  | _ => false

/-- `expr.GetCallExpr().GetFunction()`. -/
def getCallFunction : Option RawExpr → String
  | some (.callE _ _ f _) => f
  | _ => ""

/-- `expr.GetCallExpr().GetTarget()`. -/
def getCallTarget : Option RawExpr → Option RawExpr
  | some (.callE _ t _ _) => t
  | _ => none

/-- `expr.GetCallExpr().GetArgs()`. -/
def getCallArgs : Option RawExpr → List RawExpr
  | some (.callE _ _ _ args) => args
  | _ => []

/-- `expr.GetListExpr().GetElements()`. -/
def getListElements : Option RawExpr → List RawExpr
  | some (.listE _ es _) => es
  | _ => []

/-- `expr.GetListExpr().GetOptionalIndices()`. -/
def getListOptionalIndices : Option RawExpr → List Int
  | some (.listE _ _ oi) => oi
  | _ => []

/-- `expr.GetStructExpr().GetMessageName()`. -/
def getStructMessageName : Option RawExpr → String
  | some (.structE _ n _) => n
  | _ => ""

/-- `expr.GetStructExpr().GetEntries()`. -/
def getStructEntries : Option RawExpr → List ExprEntry
  | some (.structE _ _ es) => es
  | _ => []

/-- `expr.GetComprehensionExpr().GetIterRange()`. -/
def getComprehensionIterRange : Option RawExpr → Option RawExpr
  | some (.comprehensionE _ ir _ _ _ _ _ _) => ir
  | _ => none

/-- `expr.GetComprehensionExpr().GetIterVar()`. -/
def getComprehensionIterVar : Option RawExpr → String
  | some (.comprehensionE _ _ iv _ _ _ _ _) => iv
  | _ => ""

/-- `expr.GetComprehensionExpr().GetAccuVar()`. -/
def getComprehensionAccuVar : Option RawExpr → String
  | some (.comprehensionE _ _ _ av _ _ _ _) => av
  | _ => ""

/-- `expr.GetComprehensionExpr().GetAccuInit()`. -/
def getComprehensionAccuInit : Option RawExpr → Option RawExpr
  | some (.comprehensionE _ _ _ _ ai _ _ _) => ai
  | _ => none

/-- `expr.GetComprehensionExpr().GetLoopCondition()`. -/
def getComprehensionLoopCondition : Option RawExpr → Option RawExpr
  | some (.comprehensionE _ _ _ _ _ lc _ _) => lc
  | _ => none

/-- `expr.GetComprehensionExpr().GetLoopStep()`. -/
def getComprehensionLoopStep : Option RawExpr → Option RawExpr
  | some (.comprehensionE _ _ _ _ _ _ ls _) => ls
  | _ => none

/-- `expr.GetComprehensionExpr().GetResult()`. -/
def getComprehensionResult : Option RawExpr → Option RawExpr
  | some (.comprehensionE _ _ _ _ _ _ _ r) => r
  | _ => none

/-- The child-factory selected by `kindOf`, as a tag; `applyFactory`
gives each tag its meaning. -/
inductive ChildFactoryTag : Type where
  | noopFactory
  | selectFactory
  | callArgFactory
  | listElemFactory
  | structEntryFactory
  | mapEntryFactory
  | comprehensionFactory
deriving DecidableEq, Repr

/-- `kindOf(expr)`: dispatch on the raw tag; a struct-or-map literal is a
Struct exactly when `GetMessageName() != ""`; anything unrecognized
(including nil) is Unspecified with the no-op factory. -/
def kindOf : Option RawExpr → ExprKind × ChildFactoryTag
  | some (.constE _ _) => (.LiteralKind, .noopFactory)
  | some (.identE _ _) => (.IdentKind, .noopFactory)
  | some (.selectE _ _ _ _) => (.SelectKind, .selectFactory)
  | some (.callE _ _ _ _) => (.CallKind, .callArgFactory)
  | some (.listE _ _ _) => (.ListKind, .listElemFactory)
  | some (.structE _ n _) =>
      if n ≠ "" then (.StructKind, .structEntryFactory)
      else (.MapKind, .mapEntryFactory)
  | some (.comprehensionE _ _ _ _ _ _ _ _) => (.ComprehensionKind, .comprehensionFactory)
  | _ => (.UnspecifiedKind, .noopFactory)

/-- Shared id-to-type map (`map[int64]*types.Type`), as an association list. -/
def TypeMap : Type := List (Int × CelType)

/-- Go map lookup `typeMap[id]`, with a found flag via `Option`. -/
def lookupTM (tm : TypeMap) (id : Int) : Option CelType :=
  (List.find? (fun p => p.1 == id) tm).map (fun p => p.2)

/-- `navigableExprImpl`: parent back-reference, wrapped raw expression
and shared type map.  The source also caches `kind` and
`createChildren`, both pure functions (`kindOf`) of the immutable
`expr` fixed at construction; here they are recomputed on demand. -/
inductive Nav : Type where
  | mk (parent : Option Nav) (expr : Option RawExpr) (typeMap : TypeMap)

/-- The wrapped parent reference. -/
def Nav.parentRef : Nav → Option Nav
  | .mk p _ _ => p

/-- The wrapped raw expression (`nav.expr`). -/
def Nav.expr : Nav → Option RawExpr
  | .mk _ e _ => e

/-- The shared type map (`nav.typeMap`). -/
def Nav.typeMap : Nav → TypeMap
  | .mk _ _ tm => tm

/-- `newNavigableExpr(parent, expr, typeMap)`. -/
def newNavigableExpr (parent : Option Nav) (expr : Option RawExpr) (typeMap : TypeMap) : Nav :=
  Nav.mk parent expr typeMap

/-- `nav.createChild(e)`: wrap `e` with this node as parent and the same
shared type map. -/
def Nav.createChild (nav : Nav) (e : Option RawExpr) : Nav :=
  newNavigableExpr (some nav) e nav.typeMap

/-- `ToExpr()`: hand back the wrapped raw expression unchanged. -/
def Nav.ToExpr (nav : Nav) : Option RawExpr := nav.expr

/-- `ID()`: passthrough to the raw node id. -/
def Nav.ID (nav : Nav) : Int := getId nav.ToExpr

/-- `Kind()`: the classification fixed at construction. -/
def Nav.Kind (nav : Nav) : ExprKind := (kindOf nav.expr).1

/-- `Type()`: look up `ID()` in the type map, `DynType` on a miss. -/
def Nav.TypeOf (nav : Nav) : CelType :=
  match lookupTM nav.typeMap nav.ID with
  | some t => t
  | none => DynType

/-- `Parent()`: the parent and a found flag. -/
def Nav.Parent (nav : Nav) : Option Nav × Bool :=
  match nav.parentRef with
  | some p => (some p, true)
  | none => (none, false)

/-- `noopFactory`: no children. -/
def noopFactory : Nav → List Nav := fun _ => []

/-- `selectFactory`: the single operand child. -/
def selectFactory (nav : Nav) : List Nav :=
  [nav.createChild (getSelectOperand nav.ToExpr)]

/-- `callArgFactory`: the target first when present, then the arguments. -/
def callArgFactory (nav : Nav) : List Nav :=
  (match getCallTarget nav.ToExpr with
   | some t => [nav.createChild (some t)]
   | none => []) ++
  (getCallArgs nav.ToExpr).map (fun a => nav.createChild (some a))

/-- `listElemFactory`: the elements in order. -/
def listElemFactory (nav : Nav) : List Nav :=
  (getListElements nav.ToExpr).map (fun e => nav.createChild (some e))

/-- `structEntryFactory`: the field values in order. -/
def structEntryFactory (nav : Nav) : List Nav :=
  (getStructEntries nav.ToExpr).map (fun e => nav.createChild e.getValue)

/-- `mapEntryFactory`: key then value for each entry, in order. -/
def mapEntryFactory (nav : Nav) : List Nav :=
  (getStructEntries nav.ToExpr).flatMap
    (fun e => [nav.createChild e.getMapKey, nav.createChild e.getValue])

/-- `comprehensionFactory`: iterRange, accuInit, loopCondition, loopStep,
result, exactly in this order. -/
def comprehensionFactory (nav : Nav) : List Nav :=
  [nav.createChild (getComprehensionIterRange nav.ToExpr),
   nav.createChild (getComprehensionAccuInit nav.ToExpr),
   nav.createChild (getComprehensionLoopCondition nav.ToExpr),
   nav.createChild (getComprehensionLoopStep nav.ToExpr),
   nav.createChild (getComprehensionResult nav.ToExpr)]

/-- Interpretation of a factory tag. -/
def applyFactory : ChildFactoryTag → Nav → List Nav
  | .noopFactory, nav => noopFactory nav
  | .selectFactory, nav => selectFactory nav
  | .callArgFactory, nav => callArgFactory nav
  | .listElemFactory, nav => listElemFactory nav
  | .structEntryFactory, nav => structEntryFactory nav
  | .mapEntryFactory, nav => mapEntryFactory nav
  | .comprehensionFactory, nav => comprehensionFactory nav

/-- `Children()`: invoke the factory fixed by `kindOf` at construction. -/
def Nav.Children (nav : Nav) : List Nav :=
  applyFactory (kindOf nav.expr).2 nav

/-- `navigableCallImpl` as a record of its accessor results. -/
structure CallView : Type where
  FunctionName : String
  Target : Option Nav
  Args : List Nav
  ReturnType : CelType

/-- `AsCall()`: function name, optional target child, argument children
(target excluded), and the node type as return type. -/
def Nav.AsCall (nav : Nav) : CallView :=
  { FunctionName := getCallFunction nav.ToExpr
  , Target := (getCallTarget nav.ToExpr).map (fun t => nav.createChild (some t))
  , Args := (getCallArgs nav.ToExpr).map (fun a => nav.createChild (some a))
  , ReturnType := nav.TypeOf }

/-- `navigableListImpl` as a record of its accessor results. -/
structure ListView : Type where
  Elements : List Nav
  OptionalIndices : List Int
  Size : Nat

/-- `AsList()`: `Elements()` delegates to `l.Children()`, `Size()` reads
the raw element list. -/
def Nav.AsList (nav : Nav) : ListView :=
  { Elements := nav.Children
  , OptionalIndices := getListOptionalIndices nav.ToExpr
  , Size := (getListElements nav.ToExpr).length }

/-- `navigableSelectImpl` as a record of its accessor results. -/
structure SelectView : Type where
  Operand : Nav
  FieldName : String
  IsTestOnly : Bool

/-- `AsSelect()`: operand child, field name, test-only flag. -/
def Nav.AsSelect (nav : Nav) : SelectView :=
  { Operand := nav.createChild (getSelectOperand nav.ToExpr)
  , FieldName := getSelectField nav.ToExpr
  , IsTestOnly := getSelectTestOnly nav.ToExpr }

/-- `navigableEntryImpl`: key child, value child, optional flag. -/
structure EntryView : Type where
  Key : Nav
  Value : Nav
  IsOptional : Bool

/-- `navigableMapImpl` as a record of its accessor results. -/
structure MapView : Type where
  Entries : List EntryView
  Size : Nat

/-- `AsMap()`: `Entries()` and `Size()` both read
`ToExpr().GetStructExpr().GetEntries()` of the wrapped node,
whatever its kind. -/
def Nav.AsMap (nav : Nav) : MapView :=
  { Entries := (getStructEntries nav.ToExpr).map
      (fun e => { Key := nav.createChild e.getMapKey
                , Value := nav.createChild e.getValue
                , IsOptional := e.getOptionalEntry })
  , Size := (getStructEntries nav.ToExpr).length }

/-- `navigableFieldImpl`: field name, value child, optional flag. -/
structure FieldView : Type where
  FieldName : String
  Value : Nav
  IsOptional : Bool

/-- `navigableStructImpl` as a record of its accessor results. -/
structure StructView : Type where
  TypeName : String
  Fields : List FieldView

/-- `AsStruct()`: type name and field initializers, both read from
`ToExpr().GetStructExpr()` of the wrapped node, whatever its kind. -/
def Nav.AsStruct (nav : Nav) : StructView :=
  { TypeName := getStructMessageName nav.ToExpr
  , Fields := (getStructEntries nav.ToExpr).map
      (fun f => { FieldName := f.getFieldKey
                , Value := nav.createChild f.getValue
                , IsOptional := f.getOptionalEntry }) }

/-- `navigableComprehensionImpl` as a record of its accessor results. -/
structure ComprehensionView : Type where
  IterRange : Nav
  IterVar : String
  AccuVar : String
  AccuInit : Nav
  LoopCondition : Nav
  LoopStep : Nav
  Result : Nav

/-- `AsComprehension()`: the five child nodes and two variable names. -/
def Nav.AsComprehension (nav : Nav) : ComprehensionView :=
  { IterRange := nav.createChild (getComprehensionIterRange nav.ToExpr)
  , IterVar := getComprehensionIterVar nav.ToExpr
  , AccuVar := getComprehensionAccuVar nav.ToExpr
  , AccuInit := nav.createChild (getComprehensionAccuInit nav.ToExpr)
  , LoopCondition := nav.createChild (getComprehensionLoopCondition nav.ToExpr)
  , LoopStep := nav.createChild (getComprehensionLoopStep nav.ToExpr)
  , Result := nav.createChild (getComprehensionResult nav.ToExpr) }

/-- `AsIdent()`: `ToExpr().GetIdentExpr().GetName()`. -/
def Nav.AsIdent (nav : Nav) : String := getIdentName nav.ToExpr

/-- Outcome of `AsLiteral()`: the Go method returns nil on a wrong kind,
returns the converted value on success, and panics when the injected
conversion (`ConstantToVal`) fails. -/
inductive LitResult : Type where
  | nilVal
  | val (v : RefVal)
  | panicked (msg : String)
deriving DecidableEq, Repr

/-- `AsLiteral()`, parameterized by the injected external conversion
function `ConstantToVal` (out of scope for this layer): nil unless the
kind is Literal, then convert, and panic on a conversion error. -/
def Nav.AsLiteral (conv : Option Constant → Except String RefVal) (nav : Nav) : LitResult :=
  if nav.Kind ≠ .LiteralKind then .nilVal
  else
    match conv (getConstExpr nav.ToExpr) with
    | .error err => .panicked err
    | .ok v => .val v

/-! ## Sizes, for termination of the recursive traversals. -/

mutual
/-- Size of a raw expression: 1 plus the sizes of its expression slots. -/
def exprSize : RawExpr → Nat
  | .constE _ _ => 1
  | .identE _ _ => 1
  | .selectE _ op _ _ => 1 + optExprSize op
  | .callE _ tgt _ args => 1 + optExprSize tgt + exprListSize args
  | .listE _ es _ => 1 + exprListSize es
  | .structE _ _ entries => 1 + entryListSize entries
  | .comprehensionE _ ir _ _ ai lc ls r =>
      1 + optExprSize ir + optExprSize ai + optExprSize lc + optExprSize ls + optExprSize r
  | .unspecE _ => 1

/-- Size of a nil-able expression slot; nil wraps to an Unspecified node,
so it counts 1. -/
def optExprSize : Option RawExpr → Nat
  | none => 1
  | some e => exprSize e

/-- Total size of a list of expressions. -/
def exprListSize : List RawExpr → Nat
  | [] => 0
  | e :: es => exprSize e + exprListSize es

/-- Total size of a list of entries. -/
def entryListSize : List ExprEntry → Nat
  | [] => 0
  | e :: es => entrySize e + entryListSize es

/-- Size of an entry: its key slot plus its value slot. -/
def entrySize : ExprEntry → Nat
  | .mk _ k v _ => keySize k + optExprSize v

/-- Size of an entry key: the map-key expression when present, else 1. -/
def keySize : EntryKeyKind → Nat
  | .fieldKey _ => 1
  | .mapKey k => exprSize k
  | .unsetKey => 1
end

/-- Total size of a traversal queue: the sum of the wrapped expression
sizes. -/
def queueSize (l : List Nav) : Nat :=
  (l.map (fun n => optExprSize n.expr)).sum

theorem exprSize_pos (e : RawExpr) : 1 ≤ exprSize e := by
  cases e <;> simp [exprSize] <;> omega

theorem optExprSize_pos (o : Option RawExpr) : 1 ≤ optExprSize o := by
  cases o with
  | none => simp [optExprSize]
  | some e => simpa [optExprSize] using exprSize_pos e

theorem queueSize_nil : queueSize [] = 0 := rfl

theorem queueSize_cons (n : Nav) (l : List Nav) :
    queueSize (n :: l) = optExprSize n.expr + queueSize l := by
  simp [queueSize]

theorem queueSize_append (a b : List Nav) :
    queueSize (a ++ b) = queueSize a + queueSize b := by
  simp [queueSize]

theorem Nav.expr_mk (p : Option Nav) (e : Option RawExpr) (tm : TypeMap) :
    (Nav.mk p e tm).expr = e := rfl

theorem Nav.typeMap_mk (p : Option Nav) (e : Option RawExpr) (tm : TypeMap) :
    (Nav.mk p e tm).typeMap = tm := rfl

theorem Nav.parentRef_mk (p : Option Nav) (e : Option RawExpr) (tm : TypeMap) :
    (Nav.mk p e tm).parentRef = p := rfl

theorem createChild_expr (nav : Nav) (e : Option RawExpr) :
    (nav.createChild e).expr = e := rfl

theorem queueSize_map_some (nav : Nav) (l : List RawExpr) :
    queueSize (l.map (fun a => nav.createChild (some a))) = exprListSize l := by
  induction l with
  | nil => rfl
  | cons x xs ih =>
      simp only [List.map_cons, queueSize_cons, createChild_expr, exprListSize]
      rw [ih]
      simp [optExprSize]

theorem entry_slots_size (e : ExprEntry) :
    optExprSize e.getMapKey + optExprSize e.getValue = entrySize e := by
  obtain ⟨_, k, v, _⟩ := e
  cases k <;> simp [ExprEntry.getMapKey, ExprEntry.getValue, entrySize, keySize, optExprSize]

theorem value_slot_le_entry (e : ExprEntry) :
    optExprSize e.getValue ≤ entrySize e := by
  obtain ⟨_, k, v, _⟩ := e
  simp only [ExprEntry.getValue, entrySize]
  exact Nat.le_add_left _ _

theorem queueSize_map_values (nav : Nav) (l : List ExprEntry) :
    queueSize (l.map (fun e => nav.createChild e.getValue)) ≤ entryListSize l := by
  induction l with
  | nil => exact Nat.le_refl 0
  | cons x xs ih =>
      simp only [List.map_cons, queueSize_cons, createChild_expr, entryListSize]
      exact Nat.add_le_add (value_slot_le_entry x) ih

theorem queueSize_flatMap_entries (nav : Nav) (l : List ExprEntry) :
    queueSize (l.flatMap
      (fun e => [nav.createChild e.getMapKey, nav.createChild e.getValue])) =
    entryListSize l := by
  induction l with
  | nil => rfl
  | cons x xs ih =>
      simp only [List.flatMap_cons, queueSize_append, queueSize_cons, queueSize_nil,
        createChild_expr, entryListSize]
      rw [ih, ← entry_slots_size x]
      omega

/-- Every child strategy yields children whose total size is strictly
below the node's own size: the traversal queue shrinks. -/
theorem children_queueSize_lt (nav : Nav) :
    queueSize nav.Children < optExprSize nav.expr := by
  obtain ⟨p, e, tm⟩ := nav
  match e with
  | none =>
      simp [Nav.Children, Nav.expr_mk, kindOf, applyFactory, noopFactory, queueSize, optExprSize]
  | some (.constE _ _) =>
      simp [Nav.Children, Nav.expr_mk, kindOf, applyFactory, noopFactory, queueSize,
        optExprSize, exprSize]
  | some (.identE _ _) =>
      simp [Nav.Children, Nav.expr_mk, kindOf, applyFactory, noopFactory, queueSize,
        optExprSize, exprSize]
  | some (.unspecE _) =>
      simp [Nav.Children, Nav.expr_mk, kindOf, applyFactory, noopFactory, queueSize,
        optExprSize, exprSize]
  | some (.selectE _ op _ _) =>
      simp only [Nav.Children, Nav.expr_mk, kindOf, applyFactory, selectFactory,
        Nav.ToExpr, getSelectOperand, queueSize_cons, queueSize_nil,
        createChild_expr, optExprSize, exprSize]
      omega
  | some (.callE _ tgt _ args) =>
      cases tgt with
      | none =>
          simp only [Nav.Children, Nav.expr_mk, kindOf, applyFactory, callArgFactory,
            Nav.ToExpr, getCallTarget, getCallArgs, List.nil_append,
            queueSize_map_some, optExprSize, exprSize]
          omega
      | some t =>
          simp only [Nav.Children, Nav.expr_mk, kindOf, applyFactory, callArgFactory,
            Nav.ToExpr, getCallTarget, getCallArgs, List.singleton_append,
            queueSize_cons, queueSize_map_some, createChild_expr, optExprSize, exprSize]
          omega
  | some (.listE _ es _) =>
      simp only [Nav.Children, Nav.expr_mk, kindOf, applyFactory, listElemFactory,
        Nav.ToExpr, getListElements, queueSize_map_some, optExprSize, exprSize]
      omega
  | some (.structE i n entries) =>
      by_cases hn : n = ""
      · subst hn
        have hkind : kindOf (some (RawExpr.structE i "" entries)) =
            (ExprKind.MapKind, ChildFactoryTag.mapEntryFactory) := by
          simp [kindOf]
        have heq : queueSize (Nav.Children (Nav.mk p (some (.structE i "" entries)) tm)) =
            entryListSize entries := by
          simp only [Nav.Children, Nav.expr_mk, hkind, applyFactory, mapEntryFactory,
            Nav.ToExpr, getStructEntries]
          exact queueSize_flatMap_entries _ entries
        rw [heq, Nav.expr_mk]
        simp only [optExprSize, exprSize]
        omega
      · have hkind : kindOf (some (RawExpr.structE i n entries)) =
            (ExprKind.StructKind, ChildFactoryTag.structEntryFactory) := by
          simp [kindOf, hn]
        have hle : queueSize (Nav.Children (Nav.mk p (some (.structE i n entries)) tm)) ≤
            entryListSize entries := by
          simp only [Nav.Children, Nav.expr_mk, hkind, applyFactory, structEntryFactory,
            Nav.ToExpr, getStructEntries]
          exact queueSize_map_values _ entries
        have hsz : optExprSize (Nav.mk p (some (.structE i n entries)) tm).expr =
            1 + entryListSize entries := by
          simp [Nav.expr_mk, optExprSize, exprSize]
        rw [hsz]
        omega
  | some (.comprehensionE _ ir _ _ ai lc ls r) =>
      simp only [Nav.Children, Nav.expr_mk, kindOf, applyFactory, comprehensionFactory,
        Nav.ToExpr, getComprehensionIterRange, getComprehensionAccuInit,
        getComprehensionLoopCondition, getComprehensionLoopStep, getComprehensionResult,
        queueSize_cons, queueSize_nil, createChild_expr, optExprSize, exprSize]
      omega

/-- Each child is strictly smaller than its parent node. -/
theorem mem_children_size_lt (nav c : Nav) (h : c ∈ nav.Children) :
    optExprSize c.expr < optExprSize nav.expr := by
  have hle : optExprSize c.expr ≤ queueSize nav.Children := by
    have hm : optExprSize c.expr ∈ nav.Children.map (fun n => optExprSize n.expr) :=
      List.mem_map_of_mem _ h
    exact List.single_le_sum (fun x _ => Nat.zero_le x) _ hm
  exact Nat.lt_of_le_of_lt hle (children_queueSize_lt nav)

/-- `ExprMatcher`: a predicate over navigable expressions. -/
def ExprMatcher : Type := Nav → Bool

/-- `matchIsConstantValue`: a literal is constant; a struct, map or list
is constant when every child is; everything else is not. -/
def matchIsConstantValue (e : Nav) : Bool :=
  if e.Kind == .LiteralKind then true
  else if e.Kind == .StructKind || e.Kind == .MapKind || e.Kind == .ListKind then
    e.Children.attach.all (fun c => matchIsConstantValue c.1)
  else false
termination_by optExprSize e.expr
decreasing_by
  exact mem_children_size_lt e _ c.2

/-- `ConstantValueMatcher()`. -/
def ConstantValueMatcher : ExprMatcher := matchIsConstantValue

/-- `KindMatcher(kind)`. -/
def KindMatcher (kind : ExprKind) : ExprMatcher :=
  fun e => e.Kind == kind

/-- `FunctionMatcher(funcName)`. -/
def FunctionMatcher (funcName : String) : ExprMatcher :=
  fun e =>
    if e.Kind != .CallKind then false
    else e.AsCall.FunctionName == funcName

/-- `AllMatcher()`. -/
def AllMatcher : ExprMatcher := fun _ => true

/-- `matchListInternal(visit, matcher, visitDescendants)`: pop the front
node, test it, optionally append its children to the back of the
queue, until the queue is empty. -/
def matchListInternal (visit : List Nav) (matcher : ExprMatcher) (visitDescendants : Bool) :
    List Nav :=
  match visit with
  | [] => []
  | e :: rest =>
      (if matcher e then [e] else []) ++
      matchListInternal (if visitDescendants then rest ++ e.Children else rest)
        matcher visitDescendants
termination_by queueSize visit
decreasing_by
  have h1 := children_queueSize_lt e
  have h2 := optExprSize_pos e.expr
  cases visitDescendants <;>
    simp [queueSize_append, queueSize_cons] <;> omega

/-- `MatchDescendants(expr, matcher)`: full breadth-first subtree search. -/
def MatchDescendants (expr : Nav) (matcher : ExprMatcher) : List Nav :=
  matchListInternal [expr] matcher true

/-- `MatchSubset(exprs, matcher)`: test exactly the given nodes; the Go
`make`/`copy` of the slice is the identity at the value level. -/
def MatchSubset (exprs : List Nav) (matcher : ExprMatcher) : List Nav :=
  matchListInternal exprs matcher false

/-- `CheckedAST`: root expression plus type map, as consumed by
`NavigateCheckedAST`. -/
structure CheckedAST : Type where
  Expr : Option RawExpr
  TypeMapOf : TypeMap

/-- `NavigateCheckedAST(ast)`: the root navigable node. -/
def NavigateCheckedAST (ast : CheckedAST) : Nav :=
  newNavigableExpr none ast.Expr ast.TypeMapOf

/-! ## List helper lemmas. -/

theorem all_map_general {α β : Type} (l : List α) (f : α → β) (p : β → Bool) :
    (l.map f).all p = l.all (fun a => p (f a)) := by
  induction l with
  | nil => rfl
  | cons x xs ih => simp only [List.map_cons, List.all_cons, ih]

theorem attach_all {α : Type} (l : List α) (f : α → Bool) :
    l.attach.all (fun c => f c.1) = l.all f := by
  induction l with
  | nil => rfl
  | cons x xs ih =>
      simp only [List.attach_cons, List.all_cons, all_map_general, ih]

theorem flatMap_map_general {α β γ : Type} (l : List α) (f : α → β) (g : β → List γ) :
    (l.map f).flatMap g = l.flatMap (fun a => g (f a)) := by
  induction l with
  | nil => rfl
  | cons x xs ih => simp only [List.map_cons, List.flatMap_cons, ih]

theorem attach_flatMap {α β : Type} (l : List α) (f : α → List β) :
    l.attach.flatMap (fun c => f c.1) = l.flatMap f := by
  induction l with
  | nil => rfl
  | cons x xs ih =>
      simp only [List.attach_cons, List.flatMap_cons, flatMap_map_general, ih]

theorem flatMap_cons_perm {α : Type} (l : List α) (g : α → List α) :
    (l.flatMap fun n => n :: g n).Perm (l ++ l.flatMap g) := by
  induction l with
  | nil => simp
  | cons x xs ih =>
      simp only [List.flatMap_cons, List.cons_append]
      refine List.Perm.cons x ?_
      have p1 : (g x ++ xs.flatMap fun n => n :: g n).Perm (g x ++ (xs ++ xs.flatMap g)) :=
        List.Perm.append_left _ ih
      have p2 : (g x ++ (xs ++ xs.flatMap g)).Perm (xs ++ (g x ++ xs.flatMap g)) := by
        rw [← List.append_assoc, ← List.append_assoc]
        exact List.Perm.append_right _ List.perm_append_comm
      exact p1.trans p2

/-- Attach-free unfolding of `matchIsConstantValue`, mirroring the source
loop over `e.Children()`. -/
theorem matchIsConstantValue_eq (e : Nav) :
    matchIsConstantValue e =
      (if e.Kind == .LiteralKind then true
       else if e.Kind == .StructKind || e.Kind == .MapKind || e.Kind == .ListKind then
         e.Children.all matchIsConstantValue
       else false) := by
  rw [matchIsConstantValue]
  rcases h1 : (e.Kind == ExprKind.LiteralKind) with _ | _
  · simp only [Bool.false_eq_true, if_false]
    rcases h2 : (e.Kind == ExprKind.StructKind || e.Kind == ExprKind.MapKind ||
        e.Kind == ExprKind.ListKind) with _ | _
    · simp
    · simp only [if_true]
      exact attach_all e.Children matchIsConstantValue
  · simp

/-! ## Reference (specification-side) traversal definitions. -/

/-- Specification-side enumeration of the subtree rooted at a node:
the node itself, then, per child in strategy order, that child's
subtree.  Lists every subtree position exactly once. -/
def subtreeNodes (nav : Nav) : List Nav :=
  nav :: nav.Children.attach.flatMap (fun c => subtreeNodes c.1)
termination_by optExprSize nav.expr
decreasing_by
  exact mem_children_size_lt nav _ c.2

theorem subtreeNodes_eq (nav : Nav) :
    subtreeNodes nav = nav :: nav.Children.flatMap subtreeNodes := by
  rw [subtreeNodes, attach_flatMap]

theorem queueSize_flatMap_children_le (l : List Nav) :
    queueSize (l.flatMap Nav.Children) ≤ queueSize l := by
  induction l with
  | nil => exact Nat.le_refl 0
  | cons x xs ih =>
      rw [List.flatMap_cons, queueSize_append, queueSize_cons]
      have := children_queueSize_lt x
      omega

theorem queueSize_flatMap_children_lt (x : Nav) (rest : List Nav) :
    queueSize ((x :: rest).flatMap Nav.Children) < queueSize (x :: rest) := by
  rw [List.flatMap_cons, queueSize_append, queueSize_cons]
  have h1 := children_queueSize_lt x
  have h2 := queueSize_flatMap_children_le rest
  omega

/-- Specification-side breadth-first order: the current level in order,
then the concatenation of all children as the next level. -/
def levelOrder (l : List Nav) : List Nav :=
  match l with
  | [] => []
  | e :: rest => (e :: rest) ++ levelOrder ((e :: rest).flatMap Nav.Children)
termination_by queueSize l
decreasing_by
  exact queueSize_flatMap_children_lt e rest

/-! ## Behaviour of the internal walker. -/

/-- Without descent, the walker is exactly `List.filter`. -/
theorem matchListInternal_false_eq_filter (l : List Nav) (m : ExprMatcher) :
    matchListInternal l m false = l.filter m := by
  induction l with
  | nil => simp [matchListInternal]
  | cons e rest ih =>
      rw [matchListInternal]
      simp only [Bool.false_eq_true, if_false, ih, List.filter_cons]
      by_cases hm : m e <;> simp [hm]

/-- With descent, the walker emits the matches of the current queue in
order, then continues on the concatenated children. -/
theorem matchListInternal_append (m : ExprMatcher) (xs ys : List Nav) :
    matchListInternal (xs ++ ys) m true =
      xs.filter m ++ matchListInternal (ys ++ xs.flatMap Nav.Children) m true := by
  induction xs generalizing ys with
  | nil => simp
  | cons x xs ih =>
      rw [List.cons_append, matchListInternal]
      simp only [if_true, List.filter_cons, List.flatMap_cons]
      rw [List.append_assoc, ih (ys ++ x.Children)]
      by_cases hm : m x <;> simp [hm, List.append_assoc]

/-- One breadth-first round of the walker. -/
theorem matchListInternal_true_step (m : ExprMatcher) (l : List Nav) :
    matchListInternal l m true =
      l.filter m ++ matchListInternal (l.flatMap Nav.Children) m true := by
  have h := matchListInternal_append m l []
  simpa using h

/-- For the always-true matcher, the descending walker emits exactly the
specification-side level order. -/
theorem matchAll_eq_levelOrder (l : List Nav) :
    matchListInternal l AllMatcher true = levelOrder l := by
  generalize hq : queueSize l = q
  induction q using Nat.strong_induction_on generalizing l with
  | _ q ih =>
      match l with
      | [] => simp [matchListInternal, levelOrder]
      | e :: rest =>
          subst hq
          rw [matchListInternal_true_step, levelOrder]
          have hfil : (e :: rest).filter AllMatcher = e :: rest := List.filter_true _
          rw [hfil]
          congr 1
          exact ih (queueSize ((e :: rest).flatMap Nav.Children))
            (queueSize_flatMap_children_lt e rest) _ rfl

/-- The level order of a queue is a permutation of the concatenated
subtree enumerations. -/
theorem levelOrder_perm_subtrees (l : List Nav) :
    (levelOrder l).Perm (l.flatMap subtreeNodes) := by
  generalize hq : queueSize l = q
  induction q using Nat.strong_induction_on generalizing l with
  | _ q ih =>
      match l with
      | [] => simp [levelOrder]
      | e :: rest =>
          subst hq
          rw [levelOrder]
          have hrec : (levelOrder ((e :: rest).flatMap Nav.Children)).Perm
              (((e :: rest).flatMap Nav.Children).flatMap subtreeNodes) :=
            ih (queueSize ((e :: rest).flatMap Nav.Children))
              (queueSize_flatMap_children_lt e rest) _ rfl
          have p1 : ((e :: rest) ++ levelOrder ((e :: rest).flatMap Nav.Children)).Perm
              ((e :: rest) ++ ((e :: rest).flatMap Nav.Children).flatMap subtreeNodes) :=
            List.Perm.append_left _ hrec
          have hunf : (e :: rest).flatMap subtreeNodes =
              (e :: rest).flatMap (fun n => n :: n.Children.flatMap subtreeNodes) :=
            congrArg _ (funext (fun n => subtreeNodes_eq n))
          have p2 : ((e :: rest).flatMap (fun n => n :: n.Children.flatMap subtreeNodes)).Perm
              ((e :: rest) ++ (e :: rest).flatMap (fun n => n.Children.flatMap subtreeNodes)) :=
            flatMap_cons_perm _ _
          have hassoc : (e :: rest).flatMap (fun n => n.Children.flatMap subtreeNodes) =
              ((e :: rest).flatMap Nav.Children).flatMap subtreeNodes :=
            (List.flatMap_assoc ..).symm
          rw [hassoc] at p2
          rw [hunf]
          exact p1.trans p2.symm

/-! ## Children depend only on the wrapped payload. -/

/-- The raw payloads each strategy hands to `createChild`, read off the
parent payload alone. -/
def childPayloads (e : Option RawExpr) : List (Option RawExpr) :=
  match (kindOf e).2 with
  | .noopFactory => []
  | .selectFactory => [getSelectOperand e]
  | .callArgFactory =>
      (match getCallTarget e with | some t => [some t] | none => []) ++
      (getCallArgs e).map (fun a => some a)
  | .listElemFactory => (getListElements e).map (fun x => some x)
  | .structEntryFactory => (getStructEntries e).map (fun x => x.getValue)
  | .mapEntryFactory => (getStructEntries e).flatMap (fun x => [x.getMapKey, x.getValue])
  | .comprehensionFactory =>
      [getComprehensionIterRange e, getComprehensionAccuInit e,
       getComprehensionLoopCondition e, getComprehensionLoopStep e,
       getComprehensionResult e]

theorem children_expr_map (nav : Nav) :
    nav.Children.map Nav.expr = childPayloads nav.expr := by
  unfold Nav.Children childPayloads
  cases (kindOf nav.expr).2 with
  | noopFactory => rfl
  | selectFactory => rfl
  | callArgFactory =>
      simp only [applyFactory, callArgFactory, Nav.ToExpr, List.map_append, List.map_map]
      cases getCallTarget nav.expr <;>
        simp [Function.comp, createChild_expr]
  | listElemFactory =>
      simp [applyFactory, listElemFactory, Nav.ToExpr, List.map_map, Function.comp,
        createChild_expr]
  | structEntryFactory =>
      simp [applyFactory, structEntryFactory, Nav.ToExpr, List.map_map, Function.comp,
        createChild_expr]
  | mapEntryFactory =>
      simp [applyFactory, mapEntryFactory, Nav.ToExpr, List.map_flatMap,
        Function.comp, createChild_expr]
  | comprehensionFactory => rfl

/-- Identifier and kind of a node, as a function of its payload alone. -/
def payloadIdKind (e : Option RawExpr) : Int × ExprKind :=
  (getId e, (kindOf e).1)

theorem children_idKind_map (nav : Nav) :
    nav.Children.map (fun c => (c.ID, c.Kind)) =
      (childPayloads nav.expr).map payloadIdKind := by
  have h : nav.Children.map (fun c => (c.ID, c.Kind)) =
      (nav.Children.map Nav.expr).map payloadIdKind := by
    rw [List.map_map]
    rfl
  rw [h, children_expr_map]

/-! ## Shape lemmas: recovering the payload constructor from the kind. -/

theorem kind_call_shape (e : Option RawExpr) (h : (kindOf e).1 = ExprKind.CallKind) :
    ∃ i t f args, e = some (RawExpr.callE i t f args) := by
  cases e with
  | none => simp [kindOf] at h
  | some ex =>
      cases ex with
      | callE i t f args => exact ⟨i, t, f, args, rfl⟩
      | constE a b => simp [kindOf] at h
      | identE a b => simp [kindOf] at h
      | selectE a b c d => simp [kindOf] at h
      | listE a b c => simp [kindOf] at h
      | structE a n c => by_cases hn : n = "" <;> simp [kindOf, hn] at h
      | comprehensionE a b c d f g j k => simp [kindOf] at h
      | unspecE a => simp [kindOf] at h

theorem kind_struct_shape (e : Option RawExpr) (h : (kindOf e).1 = ExprKind.StructKind) :
    ∃ i n entries, n ≠ "" ∧ e = some (RawExpr.structE i n entries) := by
  cases e with
  | none => simp [kindOf] at h
  | some ex =>
      cases ex with
      | structE a n c =>
          by_cases hn : n = ""
          · simp [kindOf, hn] at h
          · exact ⟨a, n, c, hn, rfl⟩
      | constE a b => simp [kindOf] at h
      | identE a b => simp [kindOf] at h
      | selectE a b c d => simp [kindOf] at h
      | callE a b c d => simp [kindOf] at h
      | listE a b c => simp [kindOf] at h
      | comprehensionE a b c d f g j k => simp [kindOf] at h
      | unspecE a => simp [kindOf] at h

theorem kind_map_shape (e : Option RawExpr) (h : (kindOf e).1 = ExprKind.MapKind) :
    ∃ i entries, e = some (RawExpr.structE i "" entries) := by
  cases e with
  | none => simp [kindOf] at h
  | some ex =>
      cases ex with
      | structE a n c =>
          by_cases hn : n = ""
          · exact ⟨a, hn ▸ ⟨c, rfl⟩⟩
          · simp [kindOf, hn] at h
      | constE a b => simp [kindOf] at h
      | identE a b => simp [kindOf] at h
      | selectE a b c d => simp [kindOf] at h
      | callE a b c d => simp [kindOf] at h
      | listE a b c => simp [kindOf] at h
      | comprehensionE a b c d f g j k => simp [kindOf] at h
      | unspecE a => simp [kindOf] at h

theorem not_ident_kind_name (e : Option RawExpr) (h : (kindOf e).1 ≠ ExprKind.IdentKind) :
    getIdentName e = "" := by
  cases e with
  | none => rfl
  | some ex =>
      cases ex with
      | identE a b => exact absurd rfl h
      | constE a b => rfl
      | selectE a b c d => rfl
      | callE a b c d => rfl
      | listE a b c => rfl
      | structE a b c => rfl
      | comprehensionE a b c d f g j k => rfl
      | unspecE a => rfl

theorem not_call_kind_getters (e : Option RawExpr) (h : (kindOf e).1 ≠ ExprKind.CallKind) :
    getCallFunction e = "" ∧ getCallTarget e = none ∧ getCallArgs e = [] := by
  cases e with
  | none => exact ⟨rfl, rfl, rfl⟩
  | some ex =>
      cases ex with
      | callE a b c d => exact absurd rfl h
      | constE a b => exact ⟨rfl, rfl, rfl⟩
      | identE a b => exact ⟨rfl, rfl, rfl⟩
      | selectE a b c d => exact ⟨rfl, rfl, rfl⟩
      | listE a b c => exact ⟨rfl, rfl, rfl⟩
      | structE a b c => exact ⟨rfl, rfl, rfl⟩
      | comprehensionE a b c d f g j k => exact ⟨rfl, rfl, rfl⟩
      | unspecE a => exact ⟨rfl, rfl, rfl⟩

theorem not_select_kind_getters (e : Option RawExpr) (h : (kindOf e).1 ≠ ExprKind.SelectKind) :
    getSelectField e = "" ∧ getSelectOperand e = none := by
  cases e with
  | none => exact ⟨rfl, rfl⟩
  | some ex =>
      cases ex with
      | selectE a b c d => exact absurd rfl h
      | constE a b => exact ⟨rfl, rfl⟩
      | identE a b => exact ⟨rfl, rfl⟩
      | callE a b c d => exact ⟨rfl, rfl⟩
      | listE a b c => exact ⟨rfl, rfl⟩
      | structE a b c => exact ⟨rfl, rfl⟩
      | comprehensionE a b c d f g j k => exact ⟨rfl, rfl⟩
      | unspecE a => exact ⟨rfl, rfl⟩

/-! ## Claims. -/

/-- C2: `ConstantValueMatcher` holds exactly on a Literal node, or on a
List/Map/Struct node all of whose children recursively satisfy it
(so it holds on an empty list/map/struct); it is false on every node
of kind Ident, Select, Call, Comprehension or Unspecified. -/
theorem claim_C2_constant_value_matcher (e : Nav) :
    (ConstantValueMatcher e = true ↔
      (e.Kind = ExprKind.LiteralKind ∨
       ((e.Kind = ExprKind.ListKind ∨ e.Kind = ExprKind.MapKind ∨
         e.Kind = ExprKind.StructKind) ∧
        ∀ c ∈ e.Children, ConstantValueMatcher c = true))) ∧
    ((e.Kind = ExprKind.IdentKind ∨ e.Kind = ExprKind.SelectKind ∨
      e.Kind = ExprKind.CallKind ∨ e.Kind = ExprKind.ComprehensionKind ∨
      e.Kind = ExprKind.UnspecifiedKind) →
     ConstantValueMatcher e = false) := by
  have heq : ConstantValueMatcher e =
      (if e.Kind == ExprKind.LiteralKind then true
       else if e.Kind == ExprKind.StructKind || e.Kind == ExprKind.MapKind ||
           e.Kind == ExprKind.ListKind then
         e.Children.all matchIsConstantValue
       else false) := matchIsConstantValue_eq e
  by_cases hl : e.Kind = ExprKind.LiteralKind
  · constructor
    · rw [heq]
      simp [hl]
    · intro hcontra
      rcases hcontra with h | h | h | h | h <;> rw [hl] at h <;> exact absurd h (by simp)
  · by_cases hc : e.Kind = ExprKind.ListKind ∨ e.Kind = ExprKind.MapKind ∨
        e.Kind = ExprKind.StructKind
    · have hcb : (e.Kind == ExprKind.StructKind || e.Kind == ExprKind.MapKind ||
          e.Kind == ExprKind.ListKind) = true := by
        rcases hc with h | h | h <;> simp [h]
      rw [heq] at *
      constructor
      · rw [if_neg (by simp [hl]), if_pos hcb]
        rw [List.all_eq_true]
        constructor
        · intro hall
          exact Or.inr ⟨hc, fun c hcmem => hall c hcmem⟩
        · intro hor
          rcases hor with h | ⟨_, hall⟩
          · exact absurd h hl
          · exact fun c hcmem => hall c hcmem
      · intro hcontra
        exfalso
        rcases hc with h | h | h <;> rcases hcontra with h2 | h2 | h2 | h2 | h2 <;>
          rw [h] at h2 <;> simp at h2
    · have hcb : (e.Kind == ExprKind.StructKind || e.Kind == ExprKind.MapKind ||
          e.Kind == ExprKind.ListKind) = false := by
        push_neg at hc
        simp [hc.1, hc.2.1, hc.2.2]
      constructor
      · rw [heq, if_neg (by simp [hl]), hcb]
        simp only [Bool.false_eq_true, if_false]
        constructor
        · intro h
          exact absurd h (by simp)
        · intro hor
          rcases hor with h | ⟨h, _⟩
          · exact absurd h hl
          · exact absurd h hc
      · intro _
        rw [heq, if_neg (by simp [hl]), hcb]
        simp

/-- C3: `MatchDescendants(root, AllMatcher())` is exactly the
breadth-first level order seeded with the root: root first, every
subtree node exactly once (a permutation of the reference subtree
enumeration), levels in order. -/
theorem claim_C3_match_descendants_bfs (root : Nav) :
    MatchDescendants root AllMatcher = levelOrder [root] ∧
    (MatchDescendants root AllMatcher).Perm (subtreeNodes root) ∧
    (MatchDescendants root AllMatcher).head? = some root := by
  have h1 : MatchDescendants root AllMatcher = levelOrder [root] :=
    matchAll_eq_levelOrder [root]
  refine ⟨h1, ?_, ?_⟩
  · rw [h1]
    have hp := levelOrder_perm_subtrees [root]
    simpa using hp
  · rw [h1, levelOrder]
    rfl

/-- C4: `MatchSubset(exprs, matcher)` is exactly `List.filter`: it keeps
precisely the matching elements of the given list, in order, never
adds a node absent from the list and never descends into children. -/
theorem claim_C4_match_subset_filter (exprs : List Nav) (matcher : ExprMatcher) :
    MatchSubset exprs matcher = exprs.filter matcher := by
  unfold MatchSubset
  exact matchListInternal_false_eq_filter exprs matcher

/-- C5: on a Call-kind node, `Children()` is the target (when present)
followed by the arguments, while `AsCall().Args` excludes the target;
with no target the two coincide. -/
theorem claim_C5_call_children_args (nav : Nav) (h : nav.Kind = ExprKind.CallKind) :
    nav.Children = (nav.AsCall).Target.toList ++ (nav.AsCall).Args ∧
    ((nav.AsCall).Target = none → nav.Children = (nav.AsCall).Args) := by
  obtain ⟨i, t, f, args, he⟩ := kind_call_shape nav.expr h
  obtain ⟨p, e, tm⟩ := nav
  rw [Nav.expr_mk] at he
  subst he
  constructor
  · cases t with
    | none =>
        simp [Nav.Children, Nav.expr_mk, kindOf, applyFactory, callArgFactory,
          Nav.AsCall, Nav.ToExpr, getCallTarget, getCallArgs, Option.toList]
    | some t0 =>
        simp [Nav.Children, Nav.expr_mk, kindOf, applyFactory, callArgFactory,
          Nav.AsCall, Nav.ToExpr, getCallTarget, getCallArgs, Option.toList]
  · intro htgt
    cases t with
    | none =>
        simp [Nav.Children, Nav.expr_mk, kindOf, applyFactory, callArgFactory,
          Nav.AsCall, Nav.ToExpr, getCallTarget, getCallArgs]
    | some t0 =>
        exfalso
        simp [Nav.AsCall, Nav.ToExpr, Nav.expr_mk, getCallTarget] at htgt

/-- C6: the variant classifier follows the table: a struct-or-map node
with a non-empty type name is a Struct whose children are the field
values in order; with an empty type name it is a Map whose children
are key then value per entry in declaration order; a comprehension
node's children are exactly iterRange, accuInit, loopCondition,
loopStep, result; an unrecognized payload is Unspecified with no
children. -/
theorem claim_C6_variant_classifier (parent : Option Nav) (tm : TypeMap) (i : Int)
    (name : String) (entries : List ExprEntry) (ci : Int) (ir ai lc ls r : Option RawExpr)
    (iv av : String) (ui : Int) :
    (name ≠ "" →
      (newNavigableExpr parent (some (.structE i name entries)) tm).Kind =
          ExprKind.StructKind ∧
      (newNavigableExpr parent (some (.structE i name entries)) tm).Children =
        entries.map (fun en =>
          (newNavigableExpr parent (some (.structE i name entries)) tm).createChild
            en.getValue)) ∧
    (name = "" →
      (newNavigableExpr parent (some (.structE i name entries)) tm).Kind =
          ExprKind.MapKind ∧
      (newNavigableExpr parent (some (.structE i name entries)) tm).Children =
        entries.flatMap (fun en =>
          [(newNavigableExpr parent (some (.structE i name entries)) tm).createChild
             en.getMapKey,
           (newNavigableExpr parent (some (.structE i name entries)) tm).createChild
             en.getValue])) ∧
    ((newNavigableExpr parent (some (.comprehensionE ci ir iv av ai lc ls r)) tm).Kind =
        ExprKind.ComprehensionKind ∧
     (newNavigableExpr parent (some (.comprehensionE ci ir iv av ai lc ls r)) tm).Children =
       [(newNavigableExpr parent (some (.comprehensionE ci ir iv av ai lc ls r)) tm).createChild ir,
        (newNavigableExpr parent (some (.comprehensionE ci ir iv av ai lc ls r)) tm).createChild ai,
        (newNavigableExpr parent (some (.comprehensionE ci ir iv av ai lc ls r)) tm).createChild lc,
        (newNavigableExpr parent (some (.comprehensionE ci ir iv av ai lc ls r)) tm).createChild ls,
        (newNavigableExpr parent (some (.comprehensionE ci ir iv av ai lc ls r)) tm).createChild r]) ∧
    ((newNavigableExpr parent (some (.unspecE ui)) tm).Kind = ExprKind.UnspecifiedKind ∧
     (newNavigableExpr parent (some (.unspecE ui)) tm).Children = []) := by
  refine ⟨?_, ?_, ?_, ?_⟩
  · intro hn
    constructor
    · simp [newNavigableExpr, Nav.Kind, Nav.expr_mk, kindOf, hn]
    · have hk : kindOf (some (RawExpr.structE i name entries)) =
          (ExprKind.StructKind, ChildFactoryTag.structEntryFactory) := by
        simp [kindOf, hn]
      simp [newNavigableExpr, Nav.Children, Nav.expr_mk, hk, applyFactory,
        structEntryFactory, Nav.ToExpr, getStructEntries]
  · intro hn
    subst hn
    constructor
    · simp [newNavigableExpr, Nav.Kind, Nav.expr_mk, kindOf]
    · have hk : kindOf (some (RawExpr.structE i "" entries)) =
          (ExprKind.MapKind, ChildFactoryTag.mapEntryFactory) := by
        simp [kindOf]
      simp [newNavigableExpr, Nav.Children, Nav.expr_mk, hk, applyFactory,
        mapEntryFactory, Nav.ToExpr, getStructEntries]
  · exact ⟨rfl, rfl⟩
  · exact ⟨rfl, rfl⟩

/-- C7: on a Literal-kind node whose constant payload the injected
conversion function rejects, `AsLiteral` propagates the failure as a
panic — never a nil value and never a normal result. -/
theorem claim_C7_literal_conversion_panic (conv : Option Constant → Except String RefVal)
    (nav : Nav) (msg : String) (hk : nav.Kind = ExprKind.LiteralKind)
    (hc : conv (getConstExpr nav.ToExpr) = .error msg) :
    Nav.AsLiteral conv nav = .panicked msg := by
  unfold Nav.AsLiteral
  rw [if_neg (by simp [hk]), hc]

/-- C8: `Type()` returns the mapped type when the node identifier is in
the shared type map, and the dynamic/unknown sentinel `DynType` when
it is absent; a lookup miss is never a failure. -/
theorem claim_C8_type_lookup (nav : Nav) :
    (∀ t, lookupTM nav.typeMap nav.ID = some t → nav.TypeOf = t) ∧
    (lookupTM nav.typeMap nav.ID = none → nav.TypeOf = DynType) := by
  unfold Nav.TypeOf
  constructor
  · intro t ht
    rw [ht]
  · intro h
    rw [h]

/-- C9: `Children()` is deterministic at the value level, and its
identifier/kind projection depends only on the wrapped payload: two
nodes wrapping the same raw expression — e.g. successive calls on the
same receiver, or handles with different parents or type maps — yield
sequences of the same length with the same id and kind at each
position. -/
theorem claim_C9_children_value_equal (nav1 nav2 : Nav) (h : nav1.expr = nav2.expr) :
    nav1.Children.length = nav2.Children.length ∧
    nav1.Children.map (fun c => (c.ID, c.Kind)) =
      nav2.Children.map (fun c => (c.ID, c.Kind)) := by
  have h2 : nav1.Children.map (fun c => (c.ID, c.Kind)) =
      nav2.Children.map (fun c => (c.ID, c.Kind)) := by
    rw [children_idKind_map, children_idKind_map, h]
  refine ⟨?_, h2⟩
  have hlen := congrArg List.length h2
  simpa using hlen

/-- C10: `AsLiteral` on a node of non-Literal kind returns the nil value
for every conversion function, so the conversion is never consulted
and the fatal conversion-failure path cannot trigger. -/
theorem claim_C10_as_literal_wrong_kind (nav : Nav)
    (conv : Option Constant → Except String RefVal)
    (h : nav.Kind ≠ ExprKind.LiteralKind) :
    Nav.AsLiteral conv nav = .nilVal := by
  unfold Nav.AsLiteral
  rw [if_pos h]

/-- C1 as stated is false: on this Struct-kind node (type name `"T"`,
one field initializer), `AsMap()` yields one entry, not zero. -/
theorem claim_C1_counterexample :
    (newNavigableExpr none (some (.structE 5 "T"
        [ExprEntry.mk 50 (.fieldKey "f") (some (.constE 7 (some (.int64C 1)))) false]))
      []).Kind = ExprKind.StructKind ∧
    ¬ ((newNavigableExpr none (some (.structE 5 "T"
        [ExprEntry.mk 50 (.fieldKey "f") (some (.constE 7 (some (.int64C 1)))) false]))
      []).AsMap).Entries.length = 0 := by
  constructor
  · rfl
  · intro h
    simp [Nav.AsMap, Nav.ToExpr, newNavigableExpr, Nav.expr_mk, getStructEntries] at h

/-- C1 amended: every downcast accessor is total (never fails), and the
payload-disjoint accessors return empty/absent data on a mismatched
node; but `AsMap()` on a Struct-kind node yields exactly one entry
per field initializer, and `AsStruct()` on a Map-kind node yields
exactly one field per entry — the Struct/Map pair reads the shared
struct payload rather than returning an empty facade. -/
theorem claim_C1_mismatched_views (nav : Nav) :
    (nav.Kind = ExprKind.StructKind →
      (nav.AsMap).Entries.length = (getStructEntries nav.ToExpr).length ∧
      (nav.AsStruct).Fields.length = (getStructEntries nav.ToExpr).length) ∧
    (nav.Kind = ExprKind.MapKind →
      (nav.AsStruct).Fields.length = (getStructEntries nav.ToExpr).length ∧
      (nav.AsMap).Entries.length = (getStructEntries nav.ToExpr).length) ∧
    (nav.Kind ≠ ExprKind.IdentKind → nav.AsIdent = "") ∧
    (nav.Kind ≠ ExprKind.CallKind →
      (nav.AsCall).FunctionName = "" ∧ (nav.AsCall).Target = none ∧
      (nav.AsCall).Args = []) ∧
    (nav.Kind ≠ ExprKind.SelectKind →
      (nav.AsSelect).FieldName = "" ∧
      (nav.AsSelect).Operand.Kind = ExprKind.UnspecifiedKind) := by
  refine ⟨?_, ?_, ?_, ?_, ?_⟩
  · intro _
    constructor
    · simp [Nav.AsMap]
    · simp [Nav.AsStruct]
  · intro _
    constructor
    · simp [Nav.AsStruct]
    · simp [Nav.AsMap]
  · intro h
    exact not_ident_kind_name nav.expr h
  · intro h
    obtain ⟨h1, h2, h3⟩ := not_call_kind_getters nav.expr h
    refine ⟨h1, ?_, ?_⟩
    · simp [Nav.AsCall, Nav.ToExpr, h2]
    · simp [Nav.AsCall, Nav.ToExpr, h3]
  · intro h
    obtain ⟨h1, h2⟩ := not_select_kind_getters nav.expr h
    refine ⟨h1, ?_⟩
    simp [Nav.AsSelect, Nav.ToExpr, h2, Nav.createChild, newNavigableExpr,
      Nav.Kind, Nav.expr_mk, kindOf]

/-! ## Witnesses: the claim theorems applied at concrete inputs. -/

theorem claim_C1_witness :
    ((newNavigableExpr none (some (.structE 5 "T"
        [ExprEntry.mk 50 (.fieldKey "f") (some (.constE 7 (some (.int64C 1)))) false]))
      []).AsMap).Entries.length =
      (getStructEntries ((newNavigableExpr none (some (.structE 5 "T"
        [ExprEntry.mk 50 (.fieldKey "f") (some (.constE 7 (some (.int64C 1)))) false]))
      []).ToExpr)).length :=
  ((claim_C1_mismatched_views _).1 (by rfl)).1

theorem claim_C2_witness :
    ConstantValueMatcher (newNavigableExpr none (some (.identE 1 "x")) []) = false :=
  (claim_C2_constant_value_matcher _).2 (Or.inl rfl)

theorem claim_C5_witness :
    (newNavigableExpr none (some (.callE 4 (some (.identE 1 "name")) "greet" []))
        []).Children =
      ((newNavigableExpr none (some (.callE 4 (some (.identE 1 "name")) "greet" []))
        []).AsCall).Target.toList ++
      ((newNavigableExpr none (some (.callE 4 (some (.identE 1 "name")) "greet" []))
        []).AsCall).Args :=
  (claim_C5_call_children_args _ (by rfl)).1

theorem claim_C6_witness :
    (newNavigableExpr none (some (.structE 5 "T" [])) []).Kind = ExprKind.StructKind ∧
    (newNavigableExpr none (some (.structE 6 "" [])) []).Kind = ExprKind.MapKind := by
  constructor
  · exact ((claim_C6_variant_classifier none [] 5 "T" [] 0 none none none none none
      "" "" 0).1 (by decide)).1
  · exact ((claim_C6_variant_classifier none [] 6 "" [] 0 none none none none none
      "" "" 0).2.1 rfl).1

theorem claim_C7_witness :
    Nav.AsLiteral (fun _ => Except.error "bad")
      (newNavigableExpr none (some (.constE 2 (some (.int64C 3)))) []) =
      LitResult.panicked "bad" :=
  claim_C7_literal_conversion_panic (fun _ => Except.error "bad") _ "bad" rfl rfl

theorem claim_C8_witness :
    (newNavigableExpr none (some (.identE 1 "x")) [(1, CelType.named "int")]).TypeOf =
      CelType.named "int" ∧
    (newNavigableExpr none (some (.identE 1 "x")) []).TypeOf = DynType := by
  constructor
  · exact (claim_C8_type_lookup _).1 (CelType.named "int") rfl
  · exact (claim_C8_type_lookup _).2 rfl

theorem claim_C9_witness :
    (Nav.mk none (some (.callE 3 none "greet" [.identE 1 "name"])) []).Children.length =
    (Nav.mk (some (Nav.mk none none []))
        (some (.callE 3 none "greet" [.identE 1 "name"])) []).Children.length :=
  (claim_C9_children_value_equal _ _ rfl).1

theorem claim_C10_witness :
    Nav.AsLiteral (fun _ => Except.error "boom")
      (newNavigableExpr none (some (.identE 1 "x")) []) = LitResult.nilVal :=
  claim_C10_as_literal_wrong_kind _ (fun _ => Except.error "boom") (by decide)

end CelNav
